import Mathlib

/-!
Verification of the open-e4-client protocol core (package `e4client`,
files `protocol.py` and `client.py`) against its specification.

Strings are modelled as `List Char` (the wire protocol is ASCII), Python
floats as `ℚ` restricted to plain decimal literals (the only shapes the
server emits), and Python exceptions as `Except`-style error values.
Python dicts built by iteration are modelled as last-writer-wins
association lookups. Field or definition names that would collide with
reserved words are renamed (`resp_prefix` becomes `respPfx`,
`_prefix_to_stream` becomes `pfx_to_stream`); everything else keeps the
source name.
-/

deriving instance DecidableEq for Except

namespace E4

abbrev Str := List Char

/-! ### Basic string operations (Python `str.partition`, `str.split`,
`str.strip`, `int()`, `float()`) -/

/-- Python `s.partition(sep)`: split at the first occurrence of `sep`.
Returns (before, whether the separator was found, after). -/
def partitionOn (sep : Char) : Str → Str × Bool × Str
  | [] => ([], false, [])
  | c :: cs =>
    if c = sep then ([], true, cs)
    else
      let r := partitionOn sep cs
      (c :: r.1, r.2.1, r.2.2)

/-- Python `s.split(sep)` for a single-character separator: always returns
at least one (possibly empty) piece. -/
def splitOnChar (sep : Char) : Str → List Str
  | [] => [[]]
  | c :: cs =>
    if c = sep then [] :: splitOnChar sep cs
    else
      match splitOnChar sep cs with
      | [] => [[c]]
      | m :: ms => (c :: m) :: ms

def isSpaceChar (c : Char) : Bool :=
  c = ' ' || c = '\t' || c = '\n' || c = '\r'

/-- Python `s.strip()`: drop leading and trailing whitespace. -/
def strip (s : Str) : Str :=
  ((s.dropWhile isSpaceChar).reverse.dropWhile isSpaceChar).reverse

def digitVal (c : Char) : Option Nat :=
  if c.isDigit then some (c.toNat - 48) else none

def parseDigitsAux (acc : Nat) : Str → Option Nat
  | [] => some acc
  | c :: cs =>
    match digitVal c with
    | none => none
    | some d => parseDigitsAux (acc * 10 + d) cs

/-- Nonempty all-digit string to `Nat`. -/
def parseNat : Str → Option Nat
  | [] => none
  | s => parseDigitsAux 0 s

/-- Model of Python `int(s)` on stripped decimal strings. -/
def parseInt : Str → Option Int
  | '-' :: rest => (parseNat rest).map fun n => -(n : Int)
  | s => (parseNat s).map fun n => (n : Int)

/-- Unsigned part of a decimal literal: `digits`, `digits.digits`,
`digits.` or `.digits`. Values are built with `mkRat` (exact decimal value
`intpart.fracpart = (intpart * 10^k + fracpart) / 10^k`). -/
def parseUFloat (s : Str) : Option ℚ :=
  let p := partitionOn '.' s
  if p.2.1 then
    match p.1, p.2.2 with
    | [], [] => none
    | [], fp => (parseNat fp).map fun n => mkRat n ((10 : Nat) ^ fp.length)
    | ip, [] => (parseNat ip).map fun n => mkRat n 1
    | ip, fp =>
      match parseNat ip, parseNat fp with
      | some a, some b =>
        some (mkRat ((a : Int) * (10 : Int) ^ fp.length + (b : Int)) ((10 : Nat) ^ fp.length))
      | _, _ => none
  else
    (parseNat s).map fun n => mkRat n 1

/-- Model of Python `float(s)` on the plain decimal literals the streaming
server emits (no exponents, infinities or NaN appear on this wire). -/
def parseFloat : Str → Option ℚ
  | '-' :: rest => (parseUFloat rest).map Neg.neg
  | s => parseUFloat s

def parseFloats : List Str → Option (List ℚ)
  | [] => some []
  | s :: ss =>
    match parseFloat s, parseFloats ss with
    | some q, some qs => some (q :: qs)
    | _, _ => none

def listStartsWith : Str → Str → Bool
  | [], _ => true
  | _ :: _, [] => false
  | a :: as, b :: bs => a == b && listStartsWith as bs

/-- First-match association-list lookup (Python dict access, given that the
keys of the list are distinct). -/
def alistLookup {α : Type} (k : Str) : List (Str × α) → Option α
  | [] => none
  | (k', v) :: rest => if k' = k then some v else alistLookup k rest

/-- Python dicts built by a `for` loop keep the LAST binding for a repeated
key, so lookup scans the reversed insertion list. -/
def dictFind {α : Type} (p : α → Bool) (l : List α) : Option α :=
  l.reverse.find? p

/-! ### Data model (`protocol.py`) -/

inductive DataStreamID
  | ACC | BVP | GSR | TEMP | IBI | HR | BAT | TAG
deriving DecidableEq

inductive CmdID
  | DEV_DISCOVER | DEV_CONNECT_BTLE | DEV_DISCONNECT_BTLE | DEV_LIST
  | DEV_CONNECT | DEV_DISCONNECT | DEV_SUBSCRIBE | DEV_PAUSE
deriving DecidableEq

inductive CmdStatus
  | SUCCESS | ERROR
deriving DecidableEq

/-- Python exception classes raised by the embedded code. -/
inductive PyError
  | keyError | valueError | runtimeError | assertionError
deriving DecidableEq

structure StreamingDataSample where
  stream : DataStreamID
  timestamp : ℚ
  data : List ℚ
deriving DecidableEq

structure E4Device where
  uid : Str
  name : Str
  allowed : Bool
deriving DecidableEq

structure ServerReply where
  command : CmdID
  status : CmdStatus
  data : Option Str
deriving DecidableEq

/-- The Python argument schemas map names to the types `str`, `int`, `bool`
and `DataStreamID`. -/
inductive ArgType
  | str | int | bool | stream
deriving DecidableEq

inductive ArgVal
  | str (s : Str)
  | int (n : Int)
  | bool (b : Bool)
  | stream (sid : DataStreamID)
deriving DecidableEq

def ArgVal.ty : ArgVal → ArgType
  | .str _ => .str
  | .int _ => .int
  | .bool _ => .bool
  | .stream _ => .stream

structure CommandDefinition where
  cmd_id : CmdID
  cmd_str : Str
  args : List (Str × ArgType)
  is_query : Bool
deriving DecidableEq

structure DataStream where
  stream_id : DataStreamID
  cmd_abbrv : Str
  respPfx : Str
deriving DecidableEq

/-- `_cmd_defs` from `e4client/protocol.py`. -/
def cmd_defs : List CommandDefinition :=
  [⟨.DEV_DISCOVER, "device_discover_list".toList, [], true⟩,
   ⟨.DEV_CONNECT_BTLE, "device_connect_btle".toList,
     [("dev".toList, .str), ("timeout".toList, .int)], false⟩,
   ⟨.DEV_DISCONNECT_BTLE, "device_disconnect_btle".toList,
     [("dev".toList, .str)], false⟩,
   ⟨.DEV_LIST, "device_list".toList, [], true⟩,
   ⟨.DEV_CONNECT, "device_connect".toList, [("dev".toList, .str)], false⟩,
   ⟨.DEV_DISCONNECT, "device_disconnect".toList, [], false⟩,
   ⟨.DEV_SUBSCRIBE, "device_subscribe".toList,
     [("stream".toList, .stream), ("on".toList, .bool)], false⟩,
   ⟨.DEV_PAUSE, "pause".toList, [("on".toList, .bool)], false⟩]

/-- `_stream_defs` from `e4client/protocol.py` (note IBI and HR share the
command abbreviation `ibi`). -/
def stream_defs : List DataStream :=
  [⟨.ACC, "acc".toList, "E4_Acc".toList⟩,
   ⟨.BVP, "bvp".toList, "E4_Bvp".toList⟩,
   ⟨.GSR, "gsr".toList, "E4_Gsr".toList⟩,
   ⟨.TEMP, "tmp".toList, "E4_Temp".toList⟩,
   ⟨.IBI, "ibi".toList, "E4_Ibi".toList⟩,
   ⟨.HR, "ibi".toList, "E4_Hr".toList⟩,
   ⟨.BAT, "bat".toList, "E4_Battery".toList⟩,
   ⟨.TAG, "tag".toList, "E4_Tag".toList⟩]

/-- `_str_to_cmd` dict lookup. -/
def str_to_cmd (s : Str) : Option CommandDefinition :=
  dictFind (fun cd => decide (cd.cmd_str = s)) cmd_defs

/-- `_id_to_cmd` dict lookup. -/
def id_to_cmd (i : CmdID) : Option CommandDefinition :=
  dictFind (fun cd => decide (cd.cmd_id = i)) cmd_defs

/-- `_prefix_to_stream` dict lookup. -/
def pfx_to_stream (s : Str) : Option DataStream :=
  dictFind (fun ds => decide (ds.respPfx = s)) stream_defs

/-- `_id_to_stream` dict lookup. -/
def id_to_stream (i : DataStreamID) : Option DataStream :=
  dictFind (fun ds => decide (ds.stream_id = i)) stream_defs

/-- `_id_to_stream[val].cmd_abbrv`; the lookup never fails because every
`DataStreamID` appears in the table. -/
def streamAbbrv (i : DataStreamID) : Str :=
  match id_to_stream i with
  | some ds => ds.cmd_abbrv
  | none => []

/-! ### Wire codec: encoding (`_CommandDefinition.gen_cmd_string`) -/

/-- Value rendering inside `gen_cmd_string`: booleans become `ON`/`OFF`,
stream ids their command abbreviation, others their `str()` form. -/
def renderArg : ArgVal → Str
  | .str s => s
  | .int n => (toString n).toList
  | .bool b => if b then "ON".toList else "OFF".toList
  | .stream sid => streamAbbrv sid

/-- The validation loop of `gen_cmd_string`: each keyword argument must name
a schema entry of exactly its type, else `RuntimeError`. -/
def checkArgs (schema : List (Str × ArgType)) : List (Str × ArgVal) → Except PyError Unit
  | [] => .ok ()
  | (k, v) :: rest =>
    match alistLookup k schema with
    | none => .error .runtimeError
    | some ty => if ArgVal.ty v = ty then checkArgs schema rest else .error .runtimeError

/-- Rendering pass of `gen_cmd_string`: the arguments are emitted in
schema-declared order, looked up by name (`kwargs[k]`). -/
def renderArgs (kwargs : List (Str × ArgVal)) : List (Str × ArgType) → Except PyError (List Str)
  | [] => .ok []
  | (k, _) :: rest =>
    match alistLookup k kwargs with
    | none => .error .keyError
    | some v =>
      match renderArgs kwargs rest with
      | .error e => .error e
      | .ok ps => .ok (renderArg v :: ps)

/-- `' '.join(pieces)`. -/
def joinSpaces (pieces : List Str) : Str :=
  List.intercalate [' '] pieces

/-- `_CommandDefinition.gen_cmd_string`: `assert len(kwargs) == len(args)`,
validate every keyword argument, then emit
`f'{cmd} ' + ' '.join(args in schema order) + '\r\n'`. -/
def gen_cmd_string (cd : CommandDefinition) (kwargs : List (Str × ArgVal)) : Except PyError Str :=
  if kwargs.length = cd.args.length then
    match checkArgs cd.args kwargs with
    | .error e => .error e
    | .ok _ =>
      match renderArgs kwargs cd.args with
      | .error e => .error e
      | .ok pieces => .ok (cd.cmd_str ++ ' ' :: (joinSpaces pieces ++ "\r\n".toList))
  else .error .assertionError

/-- `_gen_command_string`. -/
def gen_command_string (i : CmdID) (kwargs : List (Str × ArgVal)) : Except PyError Str :=
  match id_to_cmd i with
  | some cd => gen_cmd_string cd kwargs
  | none => .error .keyError

/-! ### Wire codec: decoding (`_parse_incoming_message`,
`_parse_device_list`) -/

inductive ParsedMessage
  | statusResp (r : ServerReply)
  | queryReply (r : ServerReply)
  | streamData (s : StreamingDataSample)
deriving DecidableEq

/-- Shared tail of the status branches: read one token, `OK` means success,
anything else (including nothing) is an error; no payload is kept. -/
def statusFromTail (i : CmdID) (tail : Str) : ParsedMessage :=
  .statusResp ⟨i, if (partitionOn ' ' tail).1 = "OK".toList then .SUCCESS else .ERROR, none⟩

/-- The `R`-branch of `_parse_incoming_message`, applied to the text after
`R `. -/
def parseResponse (rest : Str) : Except PyError ParsedMessage :=
  let p := partitionOn ' ' rest
  match str_to_cmd p.1 with
  | none => .error .keyError
  | some cmd =>
    if cmd.is_query then
      .ok (.queryReply ⟨cmd.cmd_id, .SUCCESS, some p.2.2⟩)
    else if cmd.cmd_id = .DEV_SUBSCRIBE then
      -- the echoed stream abbreviation is popped and discarded
      .ok (statusFromTail cmd.cmd_id (partitionOn ' ' p.2.2).2.2)
    else if cmd.cmd_id = .DEV_PAUSE then
      -- pause echoes ON/OFF instead of OK/ERR: unconditional success
      .ok (.statusResp ⟨cmd.cmd_id, .SUCCESS, none⟩)
    else
      .ok (statusFromTail cmd.cmd_id p.2.2)

/-- `_parse_incoming_message` from `e4client/protocol.py`. -/
def parse_incoming_message (message : Str) : Except PyError ParsedMessage :=
  let p := partitionOn ' ' message
  if p.1 = "R".toList then
    parseResponse p.2.2
  else if listStartsWith "E4_".toList p.1 then
    match pfx_to_stream p.1 with
    | none => .error .keyError
    | some ds =>
      match splitOnChar ' ' p.2.2 with
      | [] => .error .valueError   -- unreachable: split never returns []
      | t :: ts =>
        match parseFloat t, parseFloats ts with
        | some q, some qs => .ok (.streamData ⟨ds.stream_id, q, qs⟩)
        | _, _ => .error .valueError
  else
    .error .runtimeError

/-- Loop body of `_parse_device_list`: `<UID> <Name> <allowed or not>`,
where an absent trailing part means allowed and otherwise the trailing part
must literally be `allowed`. -/
def parseDeviceSegment (e : Str) : E4Device :=
  let p1 := partitionOn ' ' e
  let p2 := partitionOn ' ' p1.2.2
  ⟨p1.1, p2.1, if 0 < p2.2.2.length then decide (p2.2.2 = "allowed".toList) else true⟩

/-- `_parse_device_list`: split on `|`, strip, pop the declared count,
`assert` it equals the number of remaining segments, parse each segment. -/
def parse_device_list (s : Str) : Except PyError (List E4Device) :=
  match (splitOnChar '|' s).map strip with
  | [] => .error .valueError   -- unreachable: split never returns []
  | e0 :: devs =>
    match parseInt e0 with
    | none => .error .valueError
    | some n =>
      if (devs.length : Int) = n then .ok (devs.map parseDeviceSegment)
      else .error .assertionError

/-! ### Framer (`E4StreamingClient._recv_loop`) -/

/-- The inner `while` of `_recv_loop`: repeatedly `partition` the buffer on
the delimiter `\n`, emitting each complete message, until no delimiter
remains; the trailing bytes are kept for the next read. -/
def extractMessages : Str → List Str × Str
  | [] => ([], [])
  | c :: cs =>
    let r := extractMessages cs
    if c = '\n' then ([] :: r.1, r.2)
    else
      match r.1 with
      | [] => ([], c :: r.2)
      | m :: ms => ((c :: m) :: ms, r.2)

/-- The outer loop of `_recv_loop`: each socket read appends a fragment to
the buffer, then all complete messages are split off (and handed to
`_parse_incoming_message`) before the next read. Returns all emitted
messages in order plus the final buffer. -/
def recvSteps (buf : Str) : List Str → List Str × Str
  | [] => ([], buf)
  | f :: fs =>
    let r := extractMessages (buf ++ f)
    let rest := recvSteps r.2 fs
    (r.1 ++ rest.1, rest.2)

/-- A sequence of delimiter-terminated lines as one byte stream. -/
def encodeLines (lines : List Str) : Str :=
  (lines.map fun l => l ++ ['\n']).flatten

/-! ### Client facade and device connection (`client.py`) -/

inductive ClientError
  | serverRequestError (payload : Option Str)
  | assertionError
  | keyError
deriving DecidableEq

/-- Tail of `_send_command`: `assert resp.command == cmd_id` then return the
reply; a mismatched reply raises instead of being returned. -/
def send_command_check (i : CmdID) (resp : ServerReply) : Except ClientError ServerReply :=
  if resp.command = i then .ok resp else .error .assertionError

/-- The shared facade pattern: raise `ServerRequestError(resp.data)` unless
the reply status is success (used by `pause`, `resume`,
`subscribe_to_stream`, `unsubscribe_from_stream`, `disconnect_from_device`). -/
def status_or_raise (resp : ServerReply) : Except ClientError Unit :=
  if resp.status = .SUCCESS then .ok () else .error (.serverRequestError resp.data)

/-- `E4DeviceConnection.subscribe_to_stream`: the client call runs first and
its exception propagates; only on success is the stream added to the
subscription set. Returns the call outcome and the resulting set. -/
def conn_subscribe (subs : List DataStreamID) (stream : DataStreamID)
    (resp : ServerReply) : Except ClientError Unit × List DataStreamID :=
  match status_or_raise resp with
  | .error e => (.error e, subs)
  | .ok _ => (.ok (), subs.insert stream)

/-- `E4DeviceConnection.unsubscribe_from_stream`: client call first (its
exception propagates), then `set.remove` (KeyError if absent). -/
def conn_unsubscribe (subs : List DataStreamID) (stream : DataStreamID)
    (resp : ServerReply) : Except ClientError Unit × List DataStreamID :=
  match status_or_raise resp with
  | .error e => (.error e, subs)
  | .ok _ =>
    if stream ∈ subs then (.ok (), subs.erase stream) else (.error .keyError, subs)

/-- `E4DeviceConnection.disconnect`: unsubscribe the active subscriptions
one by one, then call `disconnect_from_device`. An unsubscribe failure
propagates immediately. Returns (streams whose unsubscribe was attempted,
whether the device disconnect was reached, the raised error if any). -/
def disconnect_teardown (unsub : DataStreamID → Except ClientError Unit) :
    List DataStreamID → List DataStreamID × Bool × Option ClientError
  | [] => ([], true, none)
  | s :: rest =>
    match unsub s with
    | .error e => ([s], false, some e)
    | .ok _ =>
      let r := disconnect_teardown unsub rest
      (s :: r.1, r.2.1, r.2.2)

/-! ### Spec-side definitions used to state the claims -/

/-- The stream id carried by a decoded message, when it is a data sample. -/
def ParsedMessage.streamOf : ParsedMessage → Option DataStreamID
  | .streamData s => some s.stream
  | _ => none

/-- The value a schema entry renders to, by keyword lookup. -/
def renderLookup (kwargs : List (Str × ArgVal)) (a : Str × ArgType) : Str :=
  match alistLookup a.1 kwargs with
  | some v => renderArg v
  | none => []

/-- The single output line of the encoder, per the spec:
`<command-name> <arg1> <arg2> ... <CR><LF>`, arguments space-separated in
schema-declared order. -/
def renderLine (cd : CommandDefinition) (kwargs : List (Str × ArgVal)) : Str :=
  cd.cmd_str ++ ' ' :: (joinSpaces (cd.args.map (renderLookup kwargs)) ++ "\r\n".toList)

/-- The (name, type) multiset presented by the caller. -/
def kwargTypes (kwargs : List (Str × ArgVal)) : List (Str × ArgType) :=
  kwargs.map fun kv => (kv.1, ArgVal.ty kv.2)

/-- Spec-side contract: the caller's argument set exactly matches the fixed
schema in both names and types. -/
def argsMatchSchema (schema : List (Str × ArgType)) (kwargs : List (Str × ArgVal)) : Prop :=
  List.Perm (kwargTypes kwargs) schema

instance (schema : List (Str × ArgType)) (kwargs : List (Str × ArgVal)) :
    Decidable (argsMatchSchema schema kwargs) :=
  List.decidablePerm _ _

/-- An unsubscribe oracle whose call for the ACC stream fails with a server
request error and succeeds for every other stream. -/
def failACC : DataStreamID → Except ClientError Unit :=
  fun s => if s = .ACC then .error (.serverRequestError none) else .ok ()

/-! ### Lemmas about the string primitives -/

theorem partitionOn_no_sep {sep : Char} {l : Str} (h : sep ∉ l) :
    partitionOn sep l = (l, false, []) := by
  induction l with
  | nil => rfl
  | cons c cs ih =>
    simp only [List.mem_cons, not_or] at h
    have h1 : ¬(c = sep) := fun hc => h.1 hc.symm
    simp [partitionOn, h1, ih h.2]

theorem partitionOn_append {sep : Char} {a : Str} (b : Str) (h : sep ∉ a) :
    partitionOn sep (a ++ sep :: b) = (a, true, b) := by
  induction a with
  | nil => simp [partitionOn]
  | cons c cs ih =>
    simp only [List.mem_cons, not_or] at h
    have h1 : ¬(c = sep) := fun hc => h.1 hc.symm
    simp [partitionOn, h1, ih h.2]

/-! ### Framer lemmas -/

theorem extractMessages_no_delim {l : Str} (h : '\n' ∉ l) :
    extractMessages l = ([], l) := by
  induction l with
  | nil => rfl
  | cons c cs ih =>
    simp only [List.mem_cons, not_or] at h
    have h1 : ¬(c = '\n') := fun hc => h.1 hc.symm
    simp [extractMessages, h1, ih h.2]

theorem extractMessages_rest_no_delim (l : Str) : '\n' ∉ (extractMessages l).2 := by
  induction l with
  | nil => simp [extractMessages]
  | cons c cs ih =>
    by_cases hc : c = '\n'
    · simpa [extractMessages, hc] using ih
    · rcases h : extractMessages cs with ⟨ms, r⟩
      rw [h] at ih
      cases ms with
      | nil =>
        simp only [extractMessages, hc, if_false, h]
        simp only [List.mem_cons, not_or]
        exact ⟨fun he => hc he.symm, ih⟩
      | cons m ms' => simpa [extractMessages, hc, h] using ih

theorem extractMessages_append (x y : Str) :
    extractMessages (x ++ y)
      = ((extractMessages x).1 ++ (extractMessages ((extractMessages x).2 ++ y)).1,
         (extractMessages ((extractMessages x).2 ++ y)).2) := by
  induction x with
  | nil => simp [extractMessages]
  | cons c cs ih =>
    by_cases hc : c = '\n'
    · simp [extractMessages, hc, ih]
    · rcases hcs : extractMessages cs with ⟨ms, r⟩
      rw [hcs] at ih
      cases ms with
      | nil =>
        rcases hry : extractMessages (r ++ y) with ⟨ms2, r2⟩
        cases ms2 with
        | nil => simp [extractMessages, hc, hcs, ih, hry]
        | cons m2 ms2' => simp [extractMessages, hc, hcs, ih, hry]
      | cons m ms' => simp [extractMessages, hc, hcs, ih]

theorem recvSteps_eq (frags : List Str) : ∀ buf : Str, '\n' ∉ buf →
    recvSteps buf frags = extractMessages (buf ++ frags.flatten) := by
  induction frags with
  | nil =>
    intro buf h
    simp [recvSteps, extractMessages_no_delim h]
  | cons f fs ih =>
    intro buf h
    have h2 := extractMessages_rest_no_delim (buf ++ f)
    calc recvSteps buf (f :: fs)
        = ((extractMessages (buf ++ f)).1 ++ (recvSteps (extractMessages (buf ++ f)).2 fs).1,
           (recvSteps (extractMessages (buf ++ f)).2 fs).2) := rfl
      _ = ((extractMessages (buf ++ f)).1
            ++ (extractMessages ((extractMessages (buf ++ f)).2 ++ fs.flatten)).1,
           (extractMessages ((extractMessages (buf ++ f)).2 ++ fs.flatten)).2) := by
            rw [ih _ h2]
      _ = extractMessages ((buf ++ f) ++ fs.flatten) := (extractMessages_append _ _).symm
      _ = extractMessages (buf ++ (f :: fs).flatten) := by
            rw [List.flatten_cons, List.append_assoc]

theorem extractMessages_line {l : Str} (h : '\n' ∉ l) (rest : Str) :
    extractMessages (l ++ '\n' :: rest)
      = (l :: (extractMessages rest).1, (extractMessages rest).2) := by
  induction l with
  | nil => simp [extractMessages]
  | cons c cs ih =>
    simp only [List.mem_cons, not_or] at h
    have hc : ¬(c = '\n') := fun he => h.1 he.symm
    have hcs := ih h.2
    simp [extractMessages, hc, hcs]

theorem extractMessages_encode {lines : List Str} (h : ∀ l ∈ lines, '\n' ∉ l) :
    extractMessages (encodeLines lines) = (lines, []) := by
  induction lines with
  | nil => rfl
  | cons l ls ih =>
    have h1 : '\n' ∉ l := h l (List.mem_cons_self l ls)
    have h2 := ih fun x hx => h x (List.mem_cons_of_mem _ hx)
    have : encodeLines (l :: ls) = l ++ '\n' :: encodeLines ls := by
      simp [encodeLines]
    rw [this, extractMessages_line h1, h2]

/-- C1: for every sequence of delimiter-free lines and every fragmentation of
their delimiter-terminated concatenation, the receive loop reassembles
exactly the original lines in order with an empty final buffer; moreover
after any prefix of the reads, every complete line received so far has
already been split off and handed over (messages are emitted eagerly, before
more bytes are requested). -/
theorem c1_framing_roundtrip (lines : List Str) (frags : List Str)
    (hlines : ∀ l ∈ lines, '\n' ∉ l)
    (hfrag : frags.flatten = encodeLines lines) :
    recvSteps [] frags = (lines, [])
    ∧ ∀ k, (recvSteps [] (frags.take k)).1
        = (extractMessages (frags.take k).flatten).1 := by
  constructor
  · rw [recvSteps_eq frags [] (by simp), List.nil_append, hfrag,
      extractMessages_encode hlines]
  · intro k
    rw [recvSteps_eq _ [] (by simp), List.nil_append]

/-- Witness for C1 at a concrete fragmentation that splits both inside a
line and across line boundaries. -/
theorem c1_witness :
    recvSteps [] ["R pa".toList, "use ON\nE4_Temp 1".toList, ".0\n".toList]
      = (["R pause ON".toList, "E4_Temp 1.0".toList], []) :=
  (c1_framing_roundtrip ["R pause ON".toList, "E4_Temp 1.0".toList]
    ["R pa".toList, "use ON\nE4_Temp 1".toList, ".0\n".toList]
    (by decide) (by decide)).1

/-! ### Decoder dispatch lemmas -/

theorem parse_R (rest : Str) :
    parse_incoming_message ('R' :: ' ' :: rest) = parseResponse rest := rfl

theorem str_to_cmd_self : ∀ cd ∈ cmd_defs, str_to_cmd cd.cmd_str = some cd := by decide

theorem cmd_str_no_space : ∀ cd ∈ cmd_defs, ' ' ∉ cd.cmd_str := by decide

theorem args_keys_nodup : ∀ cd ∈ cmd_defs, (cd.args.map Prod.fst).Nodup := by decide

theorem statusFromTail_tok (i : CmdID) (tok : Str) (h : ' ' ∉ tok) :
    statusFromTail i tok
      = .statusResp ⟨i, if tok = "OK".toList then .SUCCESS else .ERROR, none⟩ := by
  simp [statusFromTail, partitionOn_no_sep h]

theorem statusFromTail_nil (i : CmdID) :
    statusFromTail i [] = .statusResp ⟨i, .ERROR, none⟩ := rfl

theorem parseResponse_status (cd : CommandDefinition) (hmem : cd ∈ cmd_defs)
    (hq : cd.is_query = false) (hs : cd.cmd_id ≠ .DEV_SUBSCRIBE)
    (hp : cd.cmd_id ≠ .DEV_PAUSE) (tail : Str) :
    parseResponse (cd.cmd_str ++ ' ' :: tail) = .ok (statusFromTail cd.cmd_id tail) := by
  have h1 : partitionOn ' ' (cd.cmd_str ++ ' ' :: tail) = (cd.cmd_str, true, tail) :=
    partitionOn_append tail (cmd_str_no_space cd hmem)
  simp only [parseResponse, h1]
  rw [str_to_cmd_self cd hmem]
  simp [hq, hs, hp]

theorem parseResponse_status_missing (cd : CommandDefinition) (hmem : cd ∈ cmd_defs)
    (hq : cd.is_query = false) (hs : cd.cmd_id ≠ .DEV_SUBSCRIBE)
    (hp : cd.cmd_id ≠ .DEV_PAUSE) :
    parseResponse cd.cmd_str = .ok (.statusResp ⟨cd.cmd_id, .ERROR, none⟩) := by
  have h1 : partitionOn ' ' cd.cmd_str = (cd.cmd_str, false, []) :=
    partitionOn_no_sep (cmd_str_no_space cd hmem)
  simp only [parseResponse, h1]
  rw [str_to_cmd_self cd hmem]
  simp [hq, hs, hp, statusFromTail_nil]

theorem parseResponse_pause (tail : Str) :
    parseResponse ("pause".toList ++ ' ' :: tail)
      = .ok (.statusResp ⟨.DEV_PAUSE, .SUCCESS, none⟩) := rfl

theorem parseResponse_subscribe (tail : Str) :
    parseResponse ("device_subscribe".toList ++ ' ' :: tail)
      = .ok (statusFromTail .DEV_SUBSCRIBE (partitionOn ' ' tail).2.2) := rfl

theorem parse_E4_stream (tail rest : Str) (ds : DataStream) (out : ParsedMessage)
    (h : ' ' ∉ ('E' :: '4' :: '_' :: tail))
    (hds : pfx_to_stream ('E' :: '4' :: '_' :: tail) = some ds)
    (hout : parse_incoming_message (('E' :: '4' :: '_' :: tail) ++ ' ' :: rest) = .ok out) :
    out.streamOf = some ds.stream_id := by
  have h1 : partitionOn ' ' (('E' :: '4' :: '_' :: tail) ++ ' ' :: rest)
      = ('E' :: '4' :: '_' :: tail, true, rest) := partitionOn_append rest h
  have h2 : ¬(('E' :: '4' :: '_' :: tail : Str) = "R".toList) := by
    intro hEq
    have hR : ("R".toList : Str) = ['R'] := rfl
    rw [hR] at hEq
    injection hEq with hE _
    exact absurd hE (by decide)
  have h3 : listStartsWith ("E4_".toList) ('E' :: '4' :: '_' :: tail) = true := rfl
  simp only [parse_incoming_message, h1] at hout
  rw [if_neg h2] at hout
  simp only [h3, if_true] at hout
  rw [hds] at hout
  rcases hsplit : splitOnChar ' ' rest with _ | ⟨t, ts⟩
  · simp [hsplit] at hout
  · simp only [hsplit] at hout
    cases hft : parseFloat t with
    | none =>
      cases hfs : parseFloats ts with
      | none => simp [hft, hfs] at hout
      | some qs => simp [hft, hfs] at hout
    | some q =>
      cases hfs : parseFloats ts with
      | none => simp [hft, hfs] at hout
      | some qs =>
        simp only [hft, hfs] at hout
        injection hout with hmsg
        rw [← hmsg]
        rfl

/-- C2: decoding `E4_Temp 123.456 36.6` yields the TEMP sample with
timestamp 123.456 and single value 36.6; decoding `E4_Acc 123.456 1.0 2.0
3.0` yields the ACC sample with the three ordered values; and every decoded
sample carries exactly the stream id that the stream table associates with
the line's `E4_*` prefix token. -/
theorem c2_sample_decode :
    parse_incoming_message ("E4_Temp 123.456 36.6".toList)
      = .ok (.streamData ⟨.TEMP, 123.456, [36.6]⟩)
    ∧ parse_incoming_message ("E4_Acc 123.456 1.0 2.0 3.0".toList)
      = .ok (.streamData ⟨.ACC, 123.456, [1, 2, 3]⟩)
    ∧ ∀ tail rest : Str, ∀ ds : DataStream, ∀ out : ParsedMessage,
        ' ' ∉ ('E' :: '4' :: '_' :: tail) →
        pfx_to_stream ('E' :: '4' :: '_' :: tail) = some ds →
        parse_incoming_message (('E' :: '4' :: '_' :: tail) ++ ' ' :: rest) = .ok out →
        out.streamOf = some ds.stream_id := by
  have e1 : (123.456 : ℚ) = mkRat 123456 1000 := by
    rw [Rat.mkRat_eq_div]; norm_num
  have e2 : (36.6 : ℚ) = mkRat 366 10 := by
    rw [Rat.mkRat_eq_div]; norm_num
  refine ⟨?_, ?_, fun tail rest ds out h hds hout => parse_E4_stream tail rest ds out h hds hout⟩
  · rw [e1, e2]; decide
  · rw [e1]; decide

/-- Witness for C2's universal part at the concrete line `E4_Gsr 1.5 0.25`. -/
theorem c2_witness :
    ParsedMessage.streamOf (.streamData ⟨.GSR, mkRat 3 2, [mkRat 1 4]⟩)
      = some DataStreamID.GSR :=
  c2_sample_decode.2.2 ("Gsr".toList) ("1.5 0.25".toList)
    ⟨.GSR, "gsr".toList, "E4_Gsr".toList⟩ (.streamData ⟨.GSR, mkRat 3 2, [mkRat 1 4]⟩)
    (by decide) (by decide) (by decide)

/-- C3: `R pause ON` and `R pause OFF` (and any other `R pause ...` line)
decode to a success status for the pause command with no payload, so the
`pause()` / `resume()` success check never raises a server-request error on
a reply decoded from a pause response line. -/
theorem c3_pause_quirk :
    parse_incoming_message ("R pause ON".toList)
      = .ok (.statusResp ⟨.DEV_PAUSE, .SUCCESS, none⟩)
    ∧ parse_incoming_message ("R pause OFF".toList)
      = .ok (.statusResp ⟨.DEV_PAUSE, .SUCCESS, none⟩)
    ∧ (∀ tail : Str, parse_incoming_message ('R' :: ' ' :: ("pause".toList ++ ' ' :: tail))
        = .ok (.statusResp ⟨.DEV_PAUSE, .SUCCESS, none⟩))
    ∧ ∀ r : ServerReply,
        (∃ tail : Str, parse_incoming_message ('R' :: ' ' :: ("pause".toList ++ ' ' :: tail))
          = .ok (.statusResp r)) →
        status_or_raise r = .ok () := by
  refine ⟨by decide, by decide, fun tail => parse_R _ ▸ parseResponse_pause tail, ?_⟩
  rintro r ⟨tail, hr⟩
  rw [parse_R, parseResponse_pause tail] at hr
  injection hr with hr
  injection hr with hr
  rw [← hr]
  rfl

/-- Witness for C3's final part: the decoded pause reply passes the facade
success check. -/
theorem c3_witness :
    status_or_raise ⟨.DEV_PAUSE, .SUCCESS, none⟩ = .ok () :=
  c3_pause_quirk.2.2.2 ⟨.DEV_PAUSE, .SUCCESS, none⟩ ⟨"ON".toList, by decide⟩

/-- C4: `R device_subscribe acc OK` decodes to a subscribe success with the
echoed `acc` consumed and no payload exposed; for every non-query,
non-pause, non-subscribe command the status token decodes to success exactly
when it is the literal `OK` (a missing token decodes to error), with no
payload; and subscribe status lines behave the same after the echoed stream
token is dropped. -/
theorem c4_status_decode :
    parse_incoming_message ("R device_subscribe acc OK".toList)
      = .ok (.statusResp ⟨.DEV_SUBSCRIBE, .SUCCESS, none⟩)
    ∧ (∀ cd ∈ cmd_defs, cd.is_query = false → cd.cmd_id ≠ .DEV_SUBSCRIBE →
        cd.cmd_id ≠ .DEV_PAUSE →
        (∀ tok : Str, ' ' ∉ tok →
          parse_incoming_message ('R' :: ' ' :: (cd.cmd_str ++ ' ' :: tok))
            = .ok (.statusResp
                ⟨cd.cmd_id, if tok = "OK".toList then .SUCCESS else .ERROR, none⟩))
        ∧ parse_incoming_message ('R' :: ' ' :: cd.cmd_str)
            = .ok (.statusResp ⟨cd.cmd_id, .ERROR, none⟩))
    ∧ ∀ echo tok : Str, ' ' ∉ echo → ' ' ∉ tok →
        parse_incoming_message
            ('R' :: ' ' :: ("device_subscribe".toList ++ ' ' :: (echo ++ ' ' :: tok)))
          = .ok (.statusResp
              ⟨.DEV_SUBSCRIBE, if tok = "OK".toList then .SUCCESS else .ERROR, none⟩) := by
  refine ⟨by decide, ?_, ?_⟩
  · intro cd hmem hq hs hp
    constructor
    · intro tok htok
      rw [parse_R, parseResponse_status cd hmem hq hs hp, statusFromTail_tok _ _ htok]
    · rw [parse_R]
      exact parseResponse_status_missing cd hmem hq hs hp
  · intro echo tok he ht
    rw [parse_R, parseResponse_subscribe, partitionOn_append _ he,
      statusFromTail_tok _ _ ht]

/-- Witness for C4 at the concrete status line `R device_connect ERR`. -/
theorem c4_witness :
    parse_incoming_message ("R device_connect ERR".toList)
      = .ok (.statusResp ⟨.DEV_CONNECT, .ERROR, none⟩) :=
  (c4_status_decode.2.1 ⟨.DEV_CONNECT, "device_connect".toList, [("dev".toList, .str)], false⟩
    (by decide) rfl (by decide) (by decide)).1 ("ERR".toList) (by decide)

/-- C5: the device-list payload `2 | A1 DeviceOne | A2 DeviceTwo
not_allowed` decodes to exactly the two expected devices; a segment with no
trailing token or with the trailing token `allowed` yields allowed=true; and
whenever the declared leading count differs from the number of remaining
segments the decode fails. -/
theorem c5_device_list :
    parse_device_list ("2 | A1 DeviceOne | A2 DeviceTwo not_allowed".toList)
      = .ok [⟨"A1".toList, "DeviceOne".toList, true⟩,
             ⟨"A2".toList, "DeviceTwo".toList, false⟩]
    ∧ (∀ uid name : Str, ' ' ∉ uid → ' ' ∉ name →
        parseDeviceSegment (uid ++ ' ' :: name) = ⟨uid, name, true⟩
        ∧ parseDeviceSegment (uid ++ ' ' :: (name ++ ' ' :: "allowed".toList))
            = ⟨uid, name, true⟩)
    ∧ ∀ s e0 : Str, ∀ devs : List Str, ∀ n : Int,
        (splitOnChar '|' s).map strip = e0 :: devs → parseInt e0 = some n →
        (devs.length : Int) ≠ n →
        parse_device_list s = .error .assertionError := by
  refine ⟨by decide, ?_, ?_⟩
  · intro uid name hu hn
    constructor
    · simp [parseDeviceSegment, partitionOn_append _ hu, partitionOn_no_sep hn]
    · simp [parseDeviceSegment, partitionOn_append _ hu, partitionOn_append _ hn]
  · intro s e0 devs n hsplit hint hne
    simp [parse_device_list, hsplit, hint, hne]

/-- Witness for C5's count-mismatch part: a declared count of 1 with two
segments fails to decode. -/
theorem c5_witness :
    parse_device_list ("1 | A1 X | A2 Y".toList) = .error .assertionError :=
  c5_device_list.2.2 ("1 | A1 X | A2 Y".toList) ("1".toList)
    ["A1 X".toList, "A2 Y".toList] 1 (by decide) (by decide) (by decide)

/-! ### Encoder lemmas -/

theorem alistLookup_mem {α : Type} {k : Str} {v : α} :
    ∀ {l : List (Str × α)}, alistLookup k l = some v → (k, v) ∈ l := by
  intro l
  induction l with
  | nil => intro h; cases h
  | cons kv rest ih =>
    rcases kv with ⟨k', v'⟩
    intro h
    by_cases hk : k' = k
    · subst hk
      simp [alistLookup] at h
      subst h
      exact List.mem_cons_self _ _
    · simp [alistLookup, hk] at h
      exact List.mem_cons_of_mem _ (ih h)

theorem alistLookup_eq_of_mem {α : Type} {l : List (Str × α)}
    (hnd : (l.map Prod.fst).Nodup) {k : Str} {v : α} (hmem : (k, v) ∈ l) :
    alistLookup k l = some v := by
  induction l with
  | nil => cases hmem
  | cons kv rest ih =>
    rcases kv with ⟨k', v'⟩
    simp only [List.map_cons, List.nodup_cons] at hnd
    rcases List.mem_cons.mp hmem with h | h
    · rw [← h]
      simp [alistLookup]
    · have hk : ¬(k' = k) := by
        intro e
        subst e
        exact hnd.1 (List.mem_map_of_mem Prod.fst h)
      simp [alistLookup, hk]
      exact ih hnd.2 h

theorem alistLookup_isSome_of_mem {α : Type} {l : List (Str × α)} {k : Str} {v : α}
    (hmem : (k, v) ∈ l) : ∃ v', alistLookup k l = some v' := by
  induction l with
  | nil => cases hmem
  | cons kv rest ih =>
    rcases kv with ⟨k', v'⟩
    by_cases hk : k' = k
    · exact ⟨v', by simp [alistLookup, hk]⟩
    · rcases List.mem_cons.mp hmem with h | h
      · exact absurd (congrArg Prod.fst h.symm) hk
      · rcases ih h with ⟨v'', hv⟩
        exact ⟨v'', by simp [alistLookup, hk, hv]⟩

theorem checkArgs_ok_iff (schema : List (Str × ArgType)) (kwargs : List (Str × ArgVal)) :
    checkArgs schema kwargs = .ok ()
      ↔ ∀ kv ∈ kwargs, alistLookup kv.1 schema = some (ArgVal.ty kv.2) := by
  induction kwargs with
  | nil => simp [checkArgs]
  | cons kv rest ih =>
    rcases kv with ⟨k, v⟩
    cases h : alistLookup k schema with
    | none =>
      simp only [checkArgs, h]
      constructor
      · intro hcontra; cases hcontra
      · intro hall
        have := hall (k, v) (List.mem_cons_self _ _)
        rw [h] at this
        cases this
    | some ty =>
      by_cases hty : ArgVal.ty v = ty
      · subst hty
        have hstep : checkArgs schema ((k, v) :: rest) = checkArgs schema rest := by
          simp [checkArgs, h]
        rw [hstep, ih]
        constructor
        · intro htail kv hkv
          rcases List.mem_cons.mp hkv with heq | hm
          · rw [heq]; exact h
          · exact htail kv hm
        · intro hall kv hkv
          exact hall kv (List.mem_cons_of_mem _ hkv)
      · simp only [checkArgs, h, if_neg hty]
        constructor
        · intro hcontra; cases hcontra
        · intro hall
          have := hall (k, v) (List.mem_cons_self _ _)
          rw [h] at this
          injection this with this
          exact absurd this.symm hty

theorem renderArgs_ok (kwargs : List (Str × ArgVal)) :
    ∀ schema : List (Str × ArgType),
      (∀ a ∈ schema, ∃ v, alistLookup a.1 kwargs = some v) →
      renderArgs kwargs schema = .ok (schema.map (renderLookup kwargs)) := by
  intro schema
  induction schema with
  | nil => intro _; rfl
  | cons a rest ih =>
    rcases a with ⟨k, ty⟩
    intro h
    rcases h (k, ty) (List.mem_cons_self _ _) with ⟨v, hv⟩
    have hrest := ih fun x hx => h x (List.mem_cons_of_mem _ hx)
    simp [renderArgs, hv, hrest, renderLookup]

theorem renderArgs_ok_val {kwargs : List (Str × ArgVal)} :
    ∀ {schema : List (Str × ArgType)} {ps : List Str},
      renderArgs kwargs schema = .ok ps → ps = schema.map (renderLookup kwargs) := by
  intro schema
  induction schema with
  | nil => intro ps h; injection h with h; exact h.symm
  | cons a rest ih =>
    rcases a with ⟨k, ty⟩
    intro ps h
    cases hv : alistLookup k kwargs with
    | none => rw [renderArgs, hv] at h; cases h
    | some v =>
      rw [renderArgs, hv] at h
      cases hr : renderArgs kwargs rest with
      | error e => rw [hr] at h; cases h
      | ok ps' =>
        rw [hr] at h
        injection h with h
        rw [← h, ih hr]
        simp [renderLookup, hv]

theorem kwargTypes_fst (kwargs : List (Str × ArgVal)) :
    (kwargTypes kwargs).map Prod.fst = kwargs.map Prod.fst := by
  simp [kwargTypes, List.map_map]

theorem gen_ok_iff (cd : CommandDefinition) (hmem : cd ∈ cmd_defs)
    (kwargs : List (Str × ArgVal)) (hnd : (kwargs.map Prod.fst).Nodup) (out : Str) :
    gen_cmd_string cd kwargs = .ok out
      ↔ (argsMatchSchema cd.args kwargs ∧ out = renderLine cd kwargs) := by
  have hschemand : (cd.args.map Prod.fst).Nodup := args_keys_nodup cd hmem
  constructor
  · intro hok
    rw [gen_cmd_string] at hok
    by_cases hlen : kwargs.length = cd.args.length
    swap
    · rw [if_neg hlen] at hok; cases hok
    rw [if_pos hlen] at hok
    cases hchk : checkArgs cd.args kwargs with
    | error e => rw [hchk] at hok; cases hok
    | ok u =>
      cases u
      rw [hchk] at hok
      cases hrnd : renderArgs kwargs cd.args with
      | error e => rw [hrnd] at hok; cases hok
      | ok ps =>
        rw [hrnd] at hok
        injection hok with hout
        have hall := (checkArgs_ok_iff _ _).mp hchk
        have hsub : kwargTypes kwargs ⊆ cd.args := by
          intro x hx
          rcases List.mem_map.mp hx with ⟨kv, hkv, rfl⟩
          exact alistLookup_mem (hall kv hkv)
        have hndt : (kwargTypes kwargs).Nodup :=
          List.Nodup.of_map Prod.fst ((kwargTypes_fst kwargs).symm ▸ hnd)
        have hperm : List.Perm (kwargTypes kwargs) cd.args := by
          refine (List.subperm_of_subset hndt hsub).perm_of_length_le ?_
          have : (kwargTypes kwargs).length = kwargs.length := by
            simp [kwargTypes]
          omega
        refine ⟨hperm, ?_⟩
        rw [← hout, renderArgs_ok_val hrnd]
        rfl
  · rintro ⟨hperm, rfl⟩
    have hlen : kwargs.length = cd.args.length := by
      have h1 := hperm.length_eq
      simpa [kwargTypes] using h1
    have h1 : ∀ kv ∈ kwargs, alistLookup kv.1 cd.args = some (ArgVal.ty kv.2) := by
      intro kv hkv
      exact alistLookup_eq_of_mem hschemand
        (hperm.subset (List.mem_map_of_mem _ hkv))
    have hchk := (checkArgs_ok_iff _ _).mpr h1
    have h2 : ∀ a ∈ cd.args, ∃ v, alistLookup a.1 kwargs = some v := by
      intro a ha
      have hin : a ∈ kwargTypes kwargs := hperm.symm.subset ha
      rcases List.mem_map.mp hin with ⟨kv, hkv, hEq⟩
      have : a.1 = kv.1 := by rw [← hEq]
      rw [this]
      exact alistLookup_isSome_of_mem (l := kwargs) (v := kv.2)
        (by rw [show (kv.1, kv.2) = kv from rfl]; exact hkv)
    have hrnd := renderArgs_ok kwargs cd.args h2
    rw [gen_cmd_string, if_pos hlen, hchk, hrnd]
    rfl

/-- C6: for every command, the encoder succeeds exactly when the caller's
argument set matches the schema in both names and types (as an unordered
exact correspondence), in which case the output is the single line
`<command-name> <args in schema order, space-separated><CR><LF>`; otherwise
it fails with an error and produces no line. -/
theorem c6_encode_schema_match (cd : CommandDefinition) (hmem : cd ∈ cmd_defs)
    (kwargs : List (Str × ArgVal)) (hnd : (kwargs.map Prod.fst).Nodup) :
    (∀ out, gen_cmd_string cd kwargs = .ok out
        ↔ (argsMatchSchema cd.args kwargs ∧ out = renderLine cd kwargs))
    ∧ (¬ argsMatchSchema cd.args kwargs → ∃ e, gen_cmd_string cd kwargs = .error e) := by
  refine ⟨fun out => gen_ok_iff cd hmem kwargs hnd out, ?_⟩
  intro hnm
  cases hg : gen_cmd_string cd kwargs with
  | error e => exact ⟨e, rfl⟩
  | ok out =>
    exact absurd ((gen_ok_iff cd hmem kwargs hnd out).mp hg).1 hnm

/-- Witness for C6: a well-typed subscribe command encodes to the expected
single line. -/
theorem c6_witness :
    gen_cmd_string
        ⟨.DEV_SUBSCRIBE, "device_subscribe".toList,
          [("stream".toList, .stream), ("on".toList, .bool)], false⟩
        [("stream".toList, .stream .ACC), ("on".toList, .bool true)]
      = .ok ("device_subscribe acc ON\r\n".toList) :=
  ((c6_encode_schema_match
      ⟨.DEV_SUBSCRIBE, "device_subscribe".toList,
        [("stream".toList, .stream), ("on".toList, .bool)], false⟩
      (by decide)
      [("stream".toList, .stream .ACC), ("on".toList, .bool true)]
      (by decide)).1 ("device_subscribe acc ON\r\n".toList)).mpr
    ⟨by decide, by decide⟩

/-- C7: the IBI and HR streams share the wire abbreviation `ibi`, so a
subscribe (or unsubscribe) command for IBI encodes to exactly the same line
as the one for HR, carrying `ibi`; the boolean argument serializes as the
literal ON/OFF token. -/
theorem c7_ibi_hr_shared (b : Bool) :
    streamAbbrv .IBI = "ibi".toList
    ∧ streamAbbrv .HR = "ibi".toList
    ∧ gen_command_string .DEV_SUBSCRIBE
        [("stream".toList, .stream .IBI), ("on".toList, .bool b)]
      = gen_command_string .DEV_SUBSCRIBE
        [("stream".toList, .stream .HR), ("on".toList, .bool b)]
    ∧ gen_command_string .DEV_SUBSCRIBE
        [("stream".toList, .stream .IBI), ("on".toList, .bool b)]
      = .ok ((if b then "device_subscribe ibi ON\r\n"
              else "device_subscribe ibi OFF\r\n").toList) := by
  cases b
  · exact ⟨by decide, by decide, by decide, by decide⟩
  · exact ⟨by decide, by decide, by decide, by decide⟩

/-- Counterexample for C8 as stated: with two active subscriptions whose
first unsubscribe fails, the teardown does not attempt the second
unsubscribe (so it does not attempt every still-active subscription), does
not reach the device disconnect, and surfaces the single propagated error
rather than an aggregate of all failures. -/
theorem c8_counterexample :
    (disconnect_teardown failACC [DataStreamID.ACC, DataStreamID.GSR]).1
        ≠ [DataStreamID.ACC, DataStreamID.GSR]
    ∧ disconnect_teardown failACC [DataStreamID.ACC, DataStreamID.GSR]
        = ([DataStreamID.ACC], false, some (.serverRequestError none)) := by
  decide

/-- C8 (amended): the teardown unsubscribes the active subscriptions in
sequence and then disconnects the device; when every unsubscribe succeeds
all are attempted and the disconnect is reached, but the first failing
unsubscribe propagates immediately, aborting the remaining unsubscribes and
the device disconnect, with no aggregation of failures. -/
theorem c8_teardown_aborts (unsub : DataStreamID → Except ClientError Unit) :
    (∀ subs, (∀ s ∈ subs, unsub s = .ok ()) →
        disconnect_teardown unsub subs = (subs, true, none))
    ∧ ∀ pre : List DataStreamID, ∀ s : DataStreamID, ∀ post : List DataStreamID,
        ∀ e : ClientError, (∀ x ∈ pre, unsub x = .ok ()) → unsub s = .error e →
        disconnect_teardown unsub (pre ++ s :: post) = (pre ++ [s], false, some e) := by
  constructor
  · intro subs h
    induction subs with
    | nil => rfl
    | cons a rest ih =>
      have ha := h a (List.mem_cons_self _ _)
      have hrest := ih fun x hx => h x (List.mem_cons_of_mem _ hx)
      simp [disconnect_teardown, ha, hrest]
  · intro pre s post e hpre hs
    induction pre with
    | nil => simp [disconnect_teardown, hs]
    | cons a rest ih =>
      have ha := hpre a (List.mem_cons_self _ _)
      have hrest := ih fun x hx => hpre x (List.mem_cons_of_mem _ hx)
      simp [disconnect_teardown, ha, hrest]

/-- Witness for C8's amended claim: one successful unsubscribe, then a
failing one; the third subscription is never attempted. -/
theorem c8_witness :
    disconnect_teardown failACC [DataStreamID.GSR, DataStreamID.ACC, DataStreamID.TEMP]
      = ([DataStreamID.GSR, DataStreamID.ACC], false, some (.serverRequestError none)) :=
  (c8_teardown_aborts failACC).2 [DataStreamID.GSR] DataStreamID.ACC
    [DataStreamID.TEMP] (.serverRequestError none) (by decide) (by decide)

/-- C9: the command-issuing path returns the mailbox reply only when its
command kind equals the one just issued; a mismatched reply is turned into
a fatal assertion error instead of being returned. -/
theorem c9_correlator_check (i : CmdID) (resp : ServerReply) :
    (∀ r, send_command_check i resp = .ok r → r = resp ∧ resp.command = i)
    ∧ (resp.command ≠ i → send_command_check i resp = .error .assertionError) := by
  constructor
  · intro r h
    rw [send_command_check] at h
    by_cases hc : resp.command = i
    · rw [if_pos hc] at h
      injection h with h
      exact ⟨h.symm, hc⟩
    · rw [if_neg hc] at h
      cases h
  · intro hc
    rw [send_command_check, if_neg hc]

/-- Witness for C9: a pause reply delivered while a connect command is in
flight raises the desynchronization assertion. -/
theorem c9_witness :
    send_command_check .DEV_CONNECT ⟨.DEV_PAUSE, .SUCCESS, none⟩
      = .error .assertionError :=
  (c9_correlator_check .DEV_CONNECT ⟨.DEV_PAUSE, .SUCCESS, none⟩).2 (by decide)

/-- C10: the device-connection handle mutates its subscription set only
after the underlying command succeeded: a non-success reply makes both
operations raise the server-request error with the set unchanged, while on
success subscribe inserts and unsubscribe removes the stream. -/
theorem c10_subscription_atomicity (subs : List DataStreamID)
    (stream : DataStreamID) (resp : ServerReply) :
    (resp.status ≠ .SUCCESS →
        conn_subscribe subs stream resp = (.error (.serverRequestError resp.data), subs)
        ∧ conn_unsubscribe subs stream resp = (.error (.serverRequestError resp.data), subs))
    ∧ (resp.status = .SUCCESS →
        (conn_subscribe subs stream resp).2 = subs.insert stream
        ∧ (stream ∈ subs → (conn_unsubscribe subs stream resp).2 = subs.erase stream)) := by
  constructor
  · intro h
    rw [conn_subscribe, conn_unsubscribe, status_or_raise, if_neg h]
    exact ⟨rfl, rfl⟩
  · intro h
    rw [conn_subscribe, conn_unsubscribe, status_or_raise, if_pos h]
    exact ⟨rfl, fun hm => by rw [if_pos hm]⟩

/-- Witness for C10: an error reply leaves an existing subscription set
untouched. -/
theorem c10_witness :
    conn_subscribe [DataStreamID.TEMP] DataStreamID.ACC ⟨.DEV_SUBSCRIBE, .ERROR, none⟩
      = (.error (.serverRequestError none), [DataStreamID.TEMP]) :=
  ((c10_subscription_atomicity [DataStreamID.TEMP] DataStreamID.ACC
      ⟨.DEV_SUBSCRIBE, .ERROR, none⟩).1 (by decide)).1

end E4
